import Mathlib

/-!
# Verification of the oha load-generation core (src/client.rs, src/client_h3.rs)

Shallow embedding of the data model, error classifiers, request builder,
H1/H2/H3 worker pipelines, redirect helper, transport dialer and workload
emitters of the repository, together with theorems settling the frozen
claims about them.

Instants are modelled as natural numbers (`Instant := Nat`, monotone clock
readings); emitter-side wall-clock instants, which the source computes with
`f64` second fractions, are modelled as rationals.  Fallible code returns
`Except ClientError`.  Async plumbing (channels, tasks) is modelled by
explicit lists of consumed tokens and per-request environment records that
carry the outcome the network produced for each request.
-/

set_option linter.unnecessarySeqFocus false

namespace Oha

/-- A monotone clock reading (`std::time::Instant`). -/
abbrev Instant := Nat

/-- `ConnectionTime` from client.rs: DNS-completion and handshake-completion
instants recorded when a connection is opened. -/
structure ConnectionTime where
  dns_lookup : Instant
  dialup : Instant
deriving Repr, DecidableEq

/-- Modelled from the spec: `Pcg64Si` (src/pcg64si.rs is not part of the
given sources).  The spec only uses that the generator is a deterministic
function of the RNG state and that the state is produced from a seed, so the
state is modelled as the seed bytes themselves. -/
structure Pcg64Si where
  seed : List Nat
deriving Repr, DecidableEq

/-- Modelled from the spec: `SeedableRng::from_seed` for `Pcg64Si`:
a deterministic injection of the 8 seed bytes into the RNG state. -/
def Pcg64Si.from_seed (s : List Nat) : Pcg64Si := ⟨s⟩

/-- `RequestResult` from client.rs: the unit of measurement produced by every
worker path.  `end` is a Lean keyword, hence `end_`. -/
structure RequestResult where
  rng : Pcg64Si
  start_latency_correction : Option Instant
  start : Instant
  connection_time : Option ConnectionTime
  first_byte : Option Instant
  end_ : Instant
  status : Nat
  len_bytes : Nat
deriving Repr, DecidableEq

/-- `RequestResult::duration`:
`self.end - self.start_latency_correction.unwrap_or(self.start)`.
`Instant` subtraction is truncated at zero, as `Nat` subtraction. -/
def RequestResult.duration (r : RequestResult) : Nat :=
  r.end_ - (r.start_latency_correction.getD r.start)

/-- `ClientError` from client.rs, with payloads kept only where a claim
inspects them (`IoError` carries `io::Error::raw_os_error()`). -/
inductive ClientError where
  | PortNotFound
  | HostNotFound
  | DNSNoRecord
  | TooManyRedirect
  | ResolveError
  | RustlsError
  | InvalidDnsName
  | IoError (rawOsError : Option Int)
  | HttpError
  | HyperError
  | InvalidUriParts
  | InvalidHeaderValue
  | GetHeaderFromBuilderError
  | HeaderToStrError
  | InvalidUri
  | Timeout
  | Deadline
  | UrlGeneratorError
  | UrlParseError
  | SigV4Error
  | QuicClientConfigError
  | QuicConnectError
  | QuicConnectionError
  | H3Error
  | QuicDriverClosedEarlyError
deriving Repr, DecidableEq

/-- `libc::EMFILE` on Linux. -/
def EMFILE : Int := 24

/-- `is_too_many_open_files` from client.rs: the error is `IoError` and its
raw OS error is `Some(libc::EMFILE)`. -/
def is_too_many_open_files (res : Except ClientError RequestResult) : Bool :=
  match res with
  | .error (.IoError rawOsError) => rawOsError == some EMFILE
  | _ => false

/-- `is_cancel_error` from client.rs:
`matches!(res, Err(ClientError::Deadline)) || is_too_many_open_files(res)`. -/
def is_cancel_error (res : Except ClientError RequestResult) : Bool :=
  (match res with
   | .error .Deadline => true
   | _ => false)
  || is_too_many_open_files res

/-- `is_hyper_error` from client.rs: any `IoError` or `HyperError`. -/
def is_hyper_error (res : Except ClientError RequestResult) : Bool :=
  match res with
  | .error (.IoError _) => true
  | .error .HyperError => true
  | _ => false

/-- `is_h3_error` from client_h3.rs: any `H3Error` or `IoError`. -/
def is_h3_error (res : Except ClientError RequestResult) : Bool :=
  match res with
  | .error .H3Error => true
  | .error (.IoError _) => true
  | _ => false

/-! ## Client configuration and the request builder -/

/-- `http::Version`, restricted to the versions the client distinguishes. -/
inductive HttpVersion where
  | HTTP_10
  | HTTP_11
  | HTTP_2
  | HTTP_3
deriving Repr, DecidableEq

/-- Numeric rank mirroring the ordering of `http::Version`. -/
def HttpVersion.rank : HttpVersion → Nat
  | .HTTP_10 => 0
  | .HTTP_11 => 1
  | .HTTP_2 => 2
  | .HTTP_3 => 3

/-- A parsed URL, restricted to the pieces the client inspects.
`pathAndQuery` is `&url[url::Position::BeforePath..]`, `absoluteForm` below
is `&url[..]`. -/
structure Url where
  scheme : String
  authority : String
  pathAndQuery : String
deriving Repr, DecidableEq

/-- The full serialisation `&url[..]` of a URL. -/
def Url.absoluteForm (u : Url) : String :=
  u.scheme ++ "://" ++ u.authority ++ u.pathAndQuery

/-- The configuration fields of `Client` that the claims inspect.  The URL
generator is an external collaborator (spec §1); it is modelled as a
deterministic function of the RNG state (spec §6). -/
structure Client where
  http_version : HttpVersion
  proxy_http_version : HttpVersion
  url_generator : Pcg64Si → Url
  proxy_url : Option Url
  redirect_limit : Nat
  disable_keepalive : Bool
  timeout : Option Nat
  unix_socket : Option String
  vsock_addr : Option Nat

/-- `Client::is_http2`. -/
def Client.is_http2 (c : Client) : Bool :=
  c.http_version == .HTTP_2

/-- `Client::is_http1`: `self.http_version <= http::Version::HTTP_11`. -/
def Client.is_http1 (c : Client) : Bool :=
  c.http_version.rank ≤ HttpVersion.HTTP_11.rank

/-- `Client::is_proxy_http2`. -/
def Client.is_proxy_http2 (c : Client) : Bool :=
  c.proxy_http_version == .HTTP_2

/-- The parts of the built `http::Request` that the claims inspect. -/
structure Request where
  uri : String
  version : HttpVersion
deriving Repr, DecidableEq

/-- `Client::request` from client.rs, restricted to URI-form and version
selection:
`use_proxy = proxy_url.is_some() && url.scheme() == "http"`; the URI is the
absolute form `&url[..]` when `!is_http1() || use_proxy` and the origin form
`&url[Position::BeforePath..]` otherwise; the version is the proxy version
when `use_proxy` and the configured version otherwise. -/
def Client.request (c : Client) (url : Url) : Request :=
  let use_proxy := c.proxy_url.isSome && url.scheme == "http"
  { uri :=
      if !c.is_http1 || use_proxy then url.absoluteForm
      else url.pathAndQuery
    version := if use_proxy then c.proxy_http_version else c.http_version }

/-- C6 -- the request URI is in origin form (path and query only) exactly
when the client speaks HTTP/1 and the request is not an HTTP-scheme target
sent through a configured proxy; otherwise the absolute form is used. -/
theorem request_uri_form_spec (c : Client) (url : Url) :
    (c.request url).uri =
      (if c.is_http1 = true ∧ ¬(c.proxy_url.isSome = true ∧ url.scheme = "http")
       then url.pathAndQuery
       else url.absoluteForm) := by
  simp only [Client.request]
  rcases h1 : c.is_http1 <;>
    rcases h2 : c.proxy_url.isSome <;>
      rcases h3 : decide (url.scheme = "http") <;>
        simp_all

/-- Witness for `request_uri_form_spec`: a plain HTTP/1.1 client without a
proxy uses the origin form. -/
theorem request_uri_form_spec_witness :
    (Client.request
      { http_version := .HTTP_11, proxy_http_version := .HTTP_11,
        url_generator := fun _ => ⟨"http", "example.com", "/"⟩,
        proxy_url := none, redirect_limit := 0, disable_keepalive := false,
        timeout := none, unix_socket := none, vsock_addr := none }
      ⟨"http", "example.com", "/"⟩).uri = "/" := by
  have h := request_uri_form_spec
    { http_version := .HTTP_11, proxy_http_version := .HTTP_11,
      url_generator := fun _ => ⟨"http", "example.com", "/"⟩,
      proxy_url := none, redirect_limit := 0, disable_keepalive := false,
      timeout := none, unix_socket := none, vsock_addr := none }
    ⟨"http", "example.com", "/"⟩
  simpa [Client.is_http1, HttpVersion.rank] using h

/-! ## Connection setup URL (zero-seeded RNG) -/

/-- The all-zero 8-byte seed `[0, 0, 0, 0, 0, 0, 0, 0]` used by
`setup_http2`, `setup_http3` and `is_work_http2`. -/
def zero_seed : List Nat := [0, 0, 0, 0, 0, 0, 0, 0]

/-- The URL that `setup_http2` (client.rs) generates before dialing:
`url_generator.generate(&mut Pcg64Si::from_seed([0; 8]))`. -/
def setup_http2_url (c : Client) : Url :=
  c.url_generator (Pcg64Si.from_seed zero_seed)

/-- The URL that `setup_http3` (client_h3.rs) generates before dialing;
the source is structured identically to `setup_http2`. -/
def setup_http3_url (c : Client) : Url :=
  c.url_generator (Pcg64Si.from_seed zero_seed)

/-- `Client::is_work_http2`: with a proxy configured, the scheme of the URL
generated from the zero-seeded RNG decides whether the origin or the proxy
version is consulted; without a proxy, the configured version decides. -/
def Client.is_work_http2 (c : Client) : Bool :=
  if c.proxy_url.isSome then
    let url := c.url_generator (Pcg64Si.from_seed zero_seed)
    if url.scheme == "https" then c.is_http2 else c.is_proxy_http2
  else
    c.is_http2

/-- The authority dialed by one H2 connection worker's `setup_http2` call in
`parallel_work_http2`: the per-stream RNG state (`streamRng`, freshly seeded
from the OS for every stream task) is created only after the connection is
up and plays no part in the dial. -/
def h2_connection_authority (c : Client) (_streamRng : Pcg64Si) : String :=
  (setup_http2_url c).authority

/-- The authority dialed by one H3 connection worker's `setup_http3` call in
`create_and_load_up_single_connection_http3`. -/
def h3_connection_authority (c : Client) (_streamRng : Pcg64Si) : String :=
  (setup_http3_url c).authority

/-- C10 -- every H2/H3 connection setup and the `is_work_http2` probe
generate their URL from a `Pcg64Si` seeded with all-zero bytes, so every
connection dials the authority of the URL the generator produces from the
zero seed, whatever the per-request RNG states. -/
theorem setup_zero_seed_spec (c : Client) (r₁ r₂ : Pcg64Si) :
    setup_http2_url c = c.url_generator (Pcg64Si.from_seed zero_seed)
    ∧ setup_http3_url c = c.url_generator (Pcg64Si.from_seed zero_seed)
    ∧ h2_connection_authority c r₁ = h2_connection_authority c r₂
    ∧ h3_connection_authority c r₁ = h3_connection_authority c r₂
    ∧ h2_connection_authority c r₁
        = (c.url_generator (Pcg64Si.from_seed zero_seed)).authority
    ∧ h3_connection_authority c r₁
        = (c.url_generator (Pcg64Si.from_seed zero_seed)).authority
    ∧ (c.proxy_url.isSome = true →
        c.is_work_http2 =
          (if (c.url_generator (Pcg64Si.from_seed zero_seed)).scheme == "https"
           then c.is_http2 else c.is_proxy_http2)) := by
  refine ⟨rfl, rfl, rfl, rfl, rfl, rfl, ?_⟩
  intro h
  simp [Client.is_work_http2, h]

/-- Witness for `setup_zero_seed_spec` at a concrete client whose generator
varies the authority with the RNG state: the dialed authority is still the
zero-seed one for any two distinct stream RNG states. -/
theorem setup_zero_seed_spec_witness :
    h2_connection_authority
      { http_version := .HTTP_2, proxy_http_version := .HTTP_11,
        url_generator := fun s => ⟨"https", String.intercalate "," ((s.seed.map toString)), "/"⟩,
        proxy_url := some ⟨"http", "proxy", "/"⟩, redirect_limit := 0,
        disable_keepalive := false, timeout := none, unix_socket := none,
        vsock_addr := none }
      ⟨[7]⟩
      = "0,0,0,0,0,0,0,0" :=
  (setup_zero_seed_spec
    { http_version := .HTTP_2, proxy_http_version := .HTTP_11,
      url_generator := fun s => ⟨"https", String.intercalate "," ((s.seed.map toString)), "/"⟩,
      proxy_url := some ⟨"http", "proxy", "/"⟩, redirect_limit := 0,
      disable_keepalive := false, timeout := none, unix_socket := none,
      vsock_addr := none }
    ⟨[7]⟩ ⟨[9]⟩).2.2.2.2.1.trans (by decide)

/-! ## H1 redirect helper

URLs reached by redirects are identified by `Nat` ids; the server's
behaviour is a function `resp` giving, for each URL, the response status,
body byte count and optional `Location` target (already resolved against the
base URL, as `Client::redirect` does before recursing). -/

/-- One HTTP response as `Client::redirect` observes it. -/
structure HttpResp where
  status : Nat
  len : Nat
  location : Option Nat
deriving Repr, DecidableEq

/-- `Client::redirect` from client.rs: a zero budget fails with
`TooManyRedirect` before any request is sent; otherwise one request is sent
to the redirect target and, if the response carries another `Location`, the
helper recurses with the budget decremented by one.  The returned status and
byte count are those of the terminal hop. -/
def redirect (resp : Nat → HttpResp) : Nat → Nat → Except ClientError (Nat × Nat)
  | 0, _ => .error .TooManyRedirect
  | limit + 1, url =>
    let r := resp url
    match r.location with
    | some loc => redirect resp limit loc
    | none => .ok (r.status, r.len)

/-- The URL reached after `k` `Location` hops starting from `url`
(stalling once a response has no `Location`). -/
def redirect_chain (resp : Nat → HttpResp) (url : Nat) : Nat → Nat
  | 0 => url
  | k + 1 =>
    match (resp (redirect_chain resp url k)).location with
    | some l => l
    | none => redirect_chain resp url k

instance {ε α : Type} [DecidableEq ε] [DecidableEq α] :
    DecidableEq (Except ε α) := fun a b =>
  match a, b with
  | .error e₁, .error e₂ =>
    if h : e₁ = e₂ then isTrue (h ▸ rfl)
    else isFalse (fun hc => h (by injection hc))
  | .error _, .ok _ => isFalse (fun hc => Except.noConfusion hc)
  | .ok _, .error _ => isFalse (fun hc => Except.noConfusion hc)
  | .ok a₁, .ok a₂ =>
    if h : a₁ = a₂ then isTrue (h ▸ rfl)
    else isFalse (fun hc => h (by injection hc))

theorem redirect_chain_shift (resp : Nat → HttpResp) (url loc : Nat)
    (h : (resp url).location = some loc) :
    ∀ k, redirect_chain resp url (k + 1) = redirect_chain resp loc k := by
  intro k
  induction k with
  | zero => simp [redirect_chain, h]
  | succ k ih =>
    show (match (resp (redirect_chain resp url (k + 1))).location with
      | some l => l
      | none => redirect_chain resp url (k + 1)) =
      redirect_chain resp loc (k + 1)
    rw [ih]
    rfl

theorem redirect_eq_tooMany_iff (resp : Nat → HttpResp) :
    ∀ L url, redirect resp L url = .error .TooManyRedirect ↔
      ∀ k < L, ((resp (redirect_chain resp url k)).location).isSome = true := by
  intro L
  induction L with
  | zero => simp [redirect]
  | succ L ih =>
    intro url
    cases hloc : (resp url).location with
    | none =>
      simp only [redirect, hloc]
      constructor
      · intro h; cases h
      · intro h
        have h0 := h 0 (Nat.succ_pos L)
        simp [redirect_chain, hloc] at h0
    | some loc =>
      simp only [redirect, hloc]
      rw [ih loc]
      constructor
      · intro h k hk
        cases k with
        | zero => simp [redirect_chain, hloc]
        | succ k =>
          rw [redirect_chain_shift resp url loc hloc]
          exact h k (Nat.lt_of_succ_lt_succ hk)
      · intro h k hk
        rw [← redirect_chain_shift resp url loc hloc]
        exact h (k + 1) (Nat.succ_lt_succ hk)

theorem redirect_ok_terminal (resp : Nat → HttpResp) :
    ∀ L url s n, redirect resp L url = .ok (s, n) →
      ∃ k, k < L
        ∧ (∀ j < k, ((resp (redirect_chain resp url j)).location).isSome = true)
        ∧ (resp (redirect_chain resp url k)).location = none
        ∧ s = (resp (redirect_chain resp url k)).status
        ∧ n = (resp (redirect_chain resp url k)).len := by
  intro L
  induction L with
  | zero => intro url s n h; cases h
  | succ L ih =>
    intro url s n h
    cases hloc : (resp url).location with
    | none =>
      simp only [redirect, hloc] at h
      refine ⟨0, Nat.succ_pos L, by omega, ?_, ?_, ?_⟩ <;>
        simp_all [redirect_chain]
    | some loc =>
      simp only [redirect, hloc] at h
      obtain ⟨k, hk, hall, hnone, hs, hn⟩ := ih loc s n h
      refine ⟨k + 1, Nat.succ_lt_succ hk, ?_, ?_, ?_, ?_⟩
      · intro j hj
        cases j with
        | zero => simp [redirect_chain, hloc]
        | succ j =>
          rw [redirect_chain_shift resp url loc hloc]
          exact hall j (Nat.lt_of_succ_lt_succ hj)
      · rw [redirect_chain_shift resp url loc hloc]; exact hnone
      · rw [redirect_chain_shift resp url loc hloc]; exact hs
      · rw [redirect_chain_shift resp url loc hloc]; exact hn

/-! ## H1 worker (`Client::work_http1`)

The network's behaviour for one `work_http1` call is an environment record:
how many consecutive `ready()` checks failed before one succeeded (each
failure makes the source redial and overwrite `connection_time`), the
`ConnectionTime` recorded by the k-th dial of the call, the clock readings,
the outcome of `send_request`, and the server behaviour seen by redirects.
The cached send-handle (`client_state.send_request`) is the state threaded
through; handles are identified by `Nat`. -/

/-- The outcome of `send_request.send_request(request).await` in
`work_http1`, with the fields of a successful response the code reads. -/
inductive SendOutcome where
  | ok (status : Nat) (len : Nat) (location : Option Nat)
  | err
deriving Repr, DecidableEq

structure H1Env where
  /-- consecutive failures of `send_request.ready()` (the reconnect loop). -/
  readyFailures : Nat
  /-- `ConnectionTime` recorded by the k-th dial of this call. -/
  dial : Nat → ConnectionTime
  /-- `Instant::now()` for `start`, after `k` reconnects. -/
  startTime : Nat → Instant
  endTime : Instant
  firstByte : Option Instant
  sendOutcome : SendOutcome
  /-- server behaviour for redirect hops. -/
  resp : Nat → HttpResp
  rngSnapshot : Pcg64Si

/-- Number of dials `work_http1` performs: one when no cached handle was
present, plus one per failed `ready()` check. -/
def h1_total_dials (env : H1Env) (st : Option Nat) : Nat :=
  (if st.isNone then 1 else 0) + env.readyFailures

/-- The redirect step of `work_http1`: with a non-zero `redirect_limit` and
a `Location` header present, `Client::redirect` is entered with the full
budget; otherwise the first response's status and byte count stand. -/
def h1_redirected (c : Client) (env : H1Env) (status0 len0 : Nat)
    (location : Option Nat) : Except ClientError (Nat × Nat) :=
  if c.redirect_limit ≠ 0 then
    match location with
    | some loc => redirect env.resp c.redirect_limit loc
    | none => .ok (status0, len0)
  else .ok (status0, len0)

/-- `Client::work_http1` from client.rs.  `connection_time` starts `None`,
is set when a fresh connection is dialed and overwritten on every
reconnect inside the `ready()` loop; after a successful send the handle is
stored back iff keep-alive is enabled, after a send error it is stored back
unconditionally and the error propagates; a redirect error propagates with
the handle already consumed. -/
def work_http1 (c : Client) (env : H1Env) (st : Option Nat) :
    Except ClientError RequestResult × Option Nat :=
  let totalDials := h1_total_dials env st
  let connection_time : Option ConnectionTime :=
    if totalDials = 0 then none else some (env.dial (totalDials - 1))
  let handle : Nat := st.getD 0 + totalDials
  match env.sendOutcome with
  | .err => (.error .HyperError, some handle)
  | .ok status0 len0 location =>
    match h1_redirected c env status0 len0 location with
    | .error e => (.error e, none)
    | .ok (status, len_bytes) =>
      (.ok { rng := env.rngSnapshot
             start_latency_correction := none
             start := env.startTime env.readyFailures
             connection_time := connection_time
             first_byte := env.firstByte
             end_ := env.endTime
             status := status
             len_bytes := len_bytes },
       if !c.disable_keepalive then some handle else none)

/-- C4 -- with `redirect_limit = L > 0`, the redirect helper follows at
most `L` hops (it succeeds exactly when the chain reaches a `Location`-free
response within `L` requests), a `Location` still present when the budget
reaches zero yields `TooManyRedirect`, and on success `work_http1` reports
only the terminal status and terminal byte count. -/
theorem redirect_limit_spec (resp : Nat → HttpResp) (L url : Nat) :
    (redirect resp L url = .error .TooManyRedirect ↔
      ∀ k < L, ((resp (redirect_chain resp url k)).location).isSome = true)
    ∧ (∀ s n, redirect resp L url = .ok (s, n) →
        ∃ k, k < L
          ∧ (∀ j < k, ((resp (redirect_chain resp url j)).location).isSome = true)
          ∧ (resp (redirect_chain resp url k)).location = none
          ∧ s = (resp (redirect_chain resp url k)).status
          ∧ n = (resp (redirect_chain resp url k)).len)
    ∧ (∀ (c : Client) (env : H1Env) (st : Option Nat) s0 n0,
        c.redirect_limit = L → 0 < L → env.resp = resp →
        env.sendOutcome = .ok s0 n0 (some url) →
        (∀ s n, redirect resp L url = .ok (s, n) →
          ∃ r, (work_http1 c env st).1 = .ok r
            ∧ r.status = s ∧ r.len_bytes = n)
        ∧ (∀ e, redirect resp L url = .error e →
            (work_http1 c env st).1 = .error e)) := by
  refine ⟨redirect_eq_tooMany_iff resp L url,
          fun s n => redirect_ok_terminal resp L url s n, ?_⟩
  intro c env st s0 n0 hL hLpos hresp hsend
  have hstep : h1_redirected c env s0 n0 (some url) = redirect resp L url := by
    rw [h1_redirected, if_pos (show c.redirect_limit ≠ 0 by omega), hresp, hL]
  constructor
  · intro s n hred
    refine ⟨{ rng := env.rngSnapshot, start_latency_correction := none,
              start := env.startTime env.readyFailures,
              connection_time :=
                if h1_total_dials env st = 0 then none
                else some (env.dial (h1_total_dials env st - 1)),
              first_byte := env.firstByte, end_ := env.endTime,
              status := s, len_bytes := n }, ?_, rfl, rfl⟩
    simp only [work_http1, hsend, hstep, hred]
  · intro e hred
    simp only [work_http1, hsend, hstep, hred]

/-- Witness for `redirect_limit_spec`: a one-hop redirect chain under a
budget of 1 reports the terminal 200/5-byte response, and a two-hop chain
under the same budget fails with `TooManyRedirect`. -/
theorem redirect_limit_spec_witness :
    (∃ r, (work_http1
        { http_version := .HTTP_11, proxy_http_version := .HTTP_11,
          url_generator := fun _ => ⟨"http", "h", "/"⟩, proxy_url := none,
          redirect_limit := 1, disable_keepalive := false, timeout := none,
          unix_socket := none, vsock_addr := none }
        { readyFailures := 0, dial := fun _ => ⟨0, 0⟩, startTime := fun _ => 0,
          endTime := 9, firstByte := none, sendOutcome := .ok 302 0 (some 1),
          resp := fun u => if u = 1 then ⟨200, 5, none⟩ else ⟨302, 0, some 1⟩,
          rngSnapshot := ⟨[]⟩ }
        none).1 = .ok r ∧ r.status = 200 ∧ r.len_bytes = 5)
    ∧ redirect (fun u => if u = 1 then ⟨200, 5, none⟩ else ⟨302, 0, some 1⟩)
        1 0 = .error .TooManyRedirect := by
  have h := redirect_limit_spec
    (fun u => if u = 1 then ⟨200, 5, none⟩ else ⟨302, 0, some 1⟩) 1 1
  refine ⟨?_, ?_⟩
  · exact (h.2.2
      { http_version := .HTTP_11, proxy_http_version := .HTTP_11,
        url_generator := fun _ => ⟨"http", "h", "/"⟩, proxy_url := none,
        redirect_limit := 1, disable_keepalive := false, timeout := none,
        unix_socket := none, vsock_addr := none }
      { readyFailures := 0, dial := fun _ => ⟨0, 0⟩, startTime := fun _ => 0,
        endTime := 9, firstByte := none, sendOutcome := .ok 302 0 (some 1),
        resp := fun u => if u = 1 then ⟨200, 5, none⟩ else ⟨302, 0, some 1⟩,
        rngSnapshot := ⟨[]⟩ }
      none 302 0 rfl (by decide) rfl rfl).1 200 5 (by decide)
  · exact (redirect_limit_spec
      (fun u => if u = 1 then ⟨200, 5, none⟩ else ⟨302, 0, some 1⟩) 1 0).1.mpr
      (by decide)

/-- C7 -- after a successful `work_http1` request the cached send-handle is
set iff keep-alive is enabled; when `send_request` errors, the handle is
stored back regardless of the keep-alive setting and the error propagates. -/
theorem h1_handle_retention_spec (c : Client) (env : H1Env) (st : Option Nat) :
    (∀ r, (work_http1 c env st).1 = .ok r →
      (((work_http1 c env st).2).isSome ↔ c.disable_keepalive = false))
    ∧ (env.sendOutcome = .err →
        (work_http1 c env st).1 = .error .HyperError
        ∧ ((work_http1 c env st).2).isSome = true) := by
  constructor
  · intro r hr
    cases hsend : env.sendOutcome with
    | err => simp [work_http1, hsend] at hr
    | ok s0 n0 loc =>
      rcases hred : h1_redirected c env s0 n0 loc with e | ⟨s, n⟩
      · simp [work_http1, hsend, hred] at hr
      · simp only [work_http1, hsend, hred]
        cases hk : c.disable_keepalive <;> simp [hk]
  · intro hsend
    simp [work_http1, hsend]

/-- Witness for `h1_handle_retention_spec`: with keep-alive enabled the
handle is kept after a success. -/
theorem h1_handle_retention_spec_witness :
    ((work_http1
      { http_version := .HTTP_11, proxy_http_version := .HTTP_11,
        url_generator := fun _ => ⟨"http", "h", "/"⟩, proxy_url := none,
        redirect_limit := 0, disable_keepalive := false, timeout := none,
        unix_socket := none, vsock_addr := none }
      { readyFailures := 0, dial := fun _ => ⟨0, 0⟩, startTime := fun _ => 0,
        endTime := 9, firstByte := none, sendOutcome := .ok 200 5 none,
        resp := fun _ => ⟨200, 5, none⟩, rngSnapshot := ⟨[]⟩ }
      (some 4)).2).isSome = true := by
  have h := (h1_handle_retention_spec
    { http_version := .HTTP_11, proxy_http_version := .HTTP_11,
      url_generator := fun _ => ⟨"http", "h", "/"⟩, proxy_url := none,
      redirect_limit := 0, disable_keepalive := false, timeout := none,
      unix_socket := none, vsock_addr := none }
    { readyFailures := 0, dial := fun _ => ⟨0, 0⟩, startTime := fun _ => 0,
      endTime := 9, firstByte := none, sendOutcome := .ok 200 5 none,
      resp := fun _ => ⟨200, 5, none⟩, rngSnapshot := ⟨[]⟩ }
    (some 4)).1
  exact (h { rng := ⟨[]⟩, start_latency_correction := none, start := 0,
             connection_time := none, first_byte := none, end_ := 9,
             status := 200, len_bytes := 5 } (by decide)).mpr rfl

/-! ## H2/H3 multiplexed workers

`work_http2` / `work_http3` build their `RequestResult` with
`connection_time = None`; the wrapping `work_http2_once` /
`work_http3_once` then install the connection's `ConnectionTime` into every
`Ok` result with `set_connection_time`, and the token payload (when
present) with `set_start_latency_correction`.  The outcome the network
produced for one request is an environment record. -/

/-- `set_connection_time` from client.rs (pure version of the `&mut`
update): installs the `ConnectionTime` into an `Ok` result, leaves errors
alone. -/
def set_connection_time (res : Except ClientError RequestResult)
    (connection_time : ConnectionTime) : Except ClientError RequestResult :=
  match res with
  | .ok r => .ok { r with connection_time := some connection_time }
  | .error e => .error e

/-- `set_start_latency_correction` from client.rs (pure version): installs
the scheduled instant into an `Ok` result, leaves errors alone. -/
def set_start_latency_correction (res : Except ClientError RequestResult)
    (start_latency_correction : Instant) : Except ClientError RequestResult :=
  match res with
  | .ok r => .ok { r with start_latency_correction := some start_latency_correction }
  | .error e => .error e

/-- The network outcome of one `work_http2` / `work_http3` request: either
an error, or the response status and body byte count, plus the clock
readings of the request. -/
structure MuxReqEnv where
  outcome : Except ClientError (Nat × Nat)
  start : Instant
  firstByte : Option Instant
  endTime : Instant
  rngSnapshot : Pcg64Si

/-- `Client::work_http2` from client.rs: the result is built with
`connection_time = None` and `start_latency_correction = None`. -/
def work_http2 (env : MuxReqEnv) : Except ClientError RequestResult :=
  match env.outcome with
  | .error e => .error e
  | .ok (status, len_bytes) =>
    .ok { rng := env.rngSnapshot
          start_latency_correction := none
          start := env.start
          connection_time := none
          first_byte := env.firstByte
          end_ := env.endTime
          status := status
          len_bytes := len_bytes }

/-- `Client::work_http3` from client_h3.rs: identical result construction
(`connection_time = None`, `start_latency_correction = None`). -/
def work_http3 (env : MuxReqEnv) : Except ClientError RequestResult :=
  match env.outcome with
  | .error e => .error e
  | .ok (status, len_bytes) =>
    .ok { rng := env.rngSnapshot
          start_latency_correction := none
          start := env.start
          connection_time := none
          first_byte := env.firstByte
          end_ := env.endTime
          status := status
          len_bytes := len_bytes }

/-- `work_http2_once` from client.rs: runs one request, computes the cancel
and reconnect flags on the raw result, then installs the connection's
`ConnectionTime` unconditionally and the latency-correction instant when a
token payload is present, and reports the result.  Returns
`(reported result, (is_cancel, is_reconnect))`. -/
def work_http2_once (env : MuxReqEnv) (connection_time : ConnectionTime)
    (start_latency_correction : Option Instant) :
    Except ClientError RequestResult × Bool × Bool :=
  let res := work_http2 env
  let is_cancel := is_cancel_error res
  let is_reconnect := is_hyper_error res
  let res := set_connection_time res connection_time
  let res :=
    match start_latency_correction with
    | some t => set_start_latency_correction res t
    | none => res
  (res, is_cancel, is_reconnect)

/-- `work_http3_once` from client_h3.rs: as `work_http2_once`, with the H3
reconnect classifier. -/
def work_http3_once (env : MuxReqEnv) (connection_time : ConnectionTime)
    (start_latency_correction : Option Instant) :
    Except ClientError RequestResult × Bool × Bool :=
  let res := work_http3 env
  let is_cancel := is_cancel_error res
  let is_reconnect := is_h3_error res
  let res := set_connection_time res connection_time
  let res :=
    match start_latency_correction with
    | some t => set_start_latency_correction res t
    | none => res
  (res, is_cancel, is_reconnect)

/-- The results one H2 stream task reports while looping over received
tokens on a single connection (`parallel_work_http2`): the loop ends after
the first request flagged cancel or reconnect. -/
def h2_stream_loop (connection_time : ConnectionTime) :
    List (MuxReqEnv × Option Instant) → List (Except ClientError RequestResult)
  | [] => []
  | (env, tok) :: rest =>
    let r := work_http2_once env connection_time tok
    if r.2.1 || r.2.2 then [r.1]
    else r.1 :: h2_stream_loop connection_time rest

/-- The results one H3 stream task reports
(`create_and_load_up_single_connection_http3`). -/
def h3_stream_loop (connection_time : ConnectionTime) :
    List (MuxReqEnv × Option Instant) → List (Except ClientError RequestResult)
  | [] => []
  | (env, tok) :: rest =>
    let r := work_http3_once env connection_time tok
    if r.2.1 || r.2.2 then [r.1]
    else r.1 :: h3_stream_loop connection_time rest

theorem work_http2_once_connection_time (env : MuxReqEnv)
    (ct : ConnectionTime) (tok : Option Instant) (r : RequestResult)
    (h : (work_http2_once env ct tok).1 = .ok r) :
    r.connection_time = some ct := by
  rcases hout : env.outcome with e | ⟨s, n⟩ <;> cases tok <;>
    simp only [work_http2_once, work_http2, hout, set_connection_time,
      set_start_latency_correction] at h <;>
    cases h <;> rfl

theorem work_http3_once_connection_time (env : MuxReqEnv)
    (ct : ConnectionTime) (tok : Option Instant) (r : RequestResult)
    (h : (work_http3_once env ct tok).1 = .ok r) :
    r.connection_time = some ct := by
  rcases hout : env.outcome with e | ⟨s, n⟩ <;> cases tok <;>
    simp only [work_http3_once, work_http3, hout, set_connection_time,
      set_start_latency_correction] at h <;>
    cases h <;> rfl

/-- The claim of C1 instantiated to one H2 stream task: `connection_time`
would be present on a successful result exactly when it is the first
request of the task's fresh connection, and absent on every
reused-connection request. -/
def conn_time_iff_new_h2 (connection_time : ConnectionTime)
    (jobs : List (MuxReqEnv × Option Instant)) : Prop :=
  ∀ i r, (h2_stream_loop connection_time jobs)[i]? = some (.ok r) →
    (r.connection_time.isSome = true ↔ i = 0)

/-- C1 counterexample -- on an H2 connection serving two successful
requests, the second request reuses the connection yet its reported result
still carries `connection_time` (the connection's establishment times), so
the claimed iff fails. -/
theorem conn_time_iff_new_h2_counterexample :
    ¬ conn_time_iff_new_h2 ⟨1, 2⟩
      [(⟨.ok (200, 5), 3, none, 4, ⟨[]⟩⟩, none),
       (⟨.ok (200, 5), 5, none, 6, ⟨[]⟩⟩, none)] := by
  intro h
  have h1 := h 1
    { rng := ⟨[]⟩, start_latency_correction := none, start := 5,
      connection_time := some ⟨1, 2⟩, first_byte := none, end_ := 6,
      status := 200, len_bytes := 5 } (by decide)
  exact absurd (h1.mp rfl) (by decide)

/-- C1 (amended) -- on the H1 paths `connection_time` is present iff a new
connection was opened for the request (no cached handle -- which includes
the keep-alive-disabled case -- or a reconnect inside the readiness loop);
on the H2/H3 paths every successful reported result carries the
establishment `ConnectionTime` of its connection, also on reused
connections. -/
theorem connection_time_presence_spec :
    (∀ (c : Client) (env : H1Env) (st : Option Nat) r,
      (work_http1 c env st).1 = .ok r →
        (r.connection_time.isSome = true ↔ (st = none ∨ 0 < env.readyFailures)))
    ∧ (∀ (ct : ConnectionTime) (jobs : List (MuxReqEnv × Option Instant)) r,
        .ok r ∈ h2_stream_loop ct jobs → r.connection_time = some ct)
    ∧ (∀ (ct : ConnectionTime) (jobs : List (MuxReqEnv × Option Instant)) r,
        .ok r ∈ h3_stream_loop ct jobs → r.connection_time = some ct) := by
  refine ⟨?_, ?_, ?_⟩
  · intro c env st r hr
    cases hsend : env.sendOutcome with
    | err => simp [work_http1, hsend] at hr
    | ok s0 n0 loc =>
      rcases hred : h1_redirected c env s0 n0 loc with e | ⟨s, n⟩
      · simp [work_http1, hsend, hred] at hr
      · simp only [work_http1, hsend, hred] at hr
        injection hr with hr
        subst hr
        rcases st with _ | h <;>
          rcases Nat.eq_zero_or_pos env.readyFailures with h0 | h0 <;>
            · simp [h1_total_dials, h0]
              try omega
  · intro ct jobs r hmem
    induction jobs with
    | nil => simp [h2_stream_loop] at hmem
    | cons job rest ih =>
      obtain ⟨env, tok⟩ := job
      simp only [h2_stream_loop] at hmem
      split at hmem
      · rcases List.mem_singleton.mp hmem with h
        exact work_http2_once_connection_time env ct tok r h.symm
      · rcases List.mem_cons.mp hmem with h | h
        · exact work_http2_once_connection_time env ct tok r h.symm
        · exact ih h
  · intro ct jobs r hmem
    induction jobs with
    | nil => simp [h3_stream_loop] at hmem
    | cons job rest ih =>
      obtain ⟨env, tok⟩ := job
      simp only [h3_stream_loop] at hmem
      split at hmem
      · rcases List.mem_singleton.mp hmem with h
        exact work_http3_once_connection_time env ct tok r h.symm
      · rcases List.mem_cons.mp hmem with h | h
        · exact work_http3_once_connection_time env ct tok r h.symm
        · exact ih h

/-- Witness for `connection_time_presence_spec`: a successful H1 request
over a fresh connection has `connection_time` present, and the second
result of the H2 stream above carries the connection's times. -/
theorem connection_time_presence_spec_witness :
    (({ rng := ⟨[]⟩, start_latency_correction := none, start := 0,
        connection_time := some ⟨7, 8⟩, first_byte := none, end_ := 9,
        status := 200, len_bytes := 5 } : RequestResult).connection_time.isSome = true)
    ∧ ({ rng := ⟨[]⟩, start_latency_correction := none, start := 5,
         connection_time := some ⟨1, 2⟩, first_byte := none, end_ := 6,
         status := 200, len_bytes := 5 } : RequestResult).connection_time = some ⟨1, 2⟩ := by
  constructor
  · exact (connection_time_presence_spec.1
      { http_version := .HTTP_11, proxy_http_version := .HTTP_11,
        url_generator := fun _ => ⟨"http", "h", "/"⟩, proxy_url := none,
        redirect_limit := 0, disable_keepalive := true, timeout := none,
        unix_socket := none, vsock_addr := none }
      { readyFailures := 0, dial := fun _ => ⟨7, 8⟩, startTime := fun _ => 0,
        endTime := 9, firstByte := none, sendOutcome := .ok 200 5 none,
        resp := fun _ => ⟨200, 5, none⟩, rngSnapshot := ⟨[]⟩ }
      none _ (by decide)).mpr (Or.inl rfl)
  · exact connection_time_presence_spec.2.1 ⟨1, 2⟩
      [(⟨.ok (200, 5), 3, none, 4, ⟨[]⟩⟩, none),
       (⟨.ok (200, 5), 5, none, 6, ⟨[]⟩⟩, none)] _ (by decide)

/-! ## Transport dialer (`Client::client`) -/

/-- The transport selected by `Client::client`, in source order: an
`HTTP_3` version takes QUIC; an `https` scheme takes TLS over TCP; a
configured Unix socket path takes a Unix stream; a configured vsock
address takes a vsock stream; otherwise plain TCP. -/
inductive TransportPath where
  | quic
  | tls
  | unix
  | vsock
  | tcp
deriving Repr, DecidableEq

/-- Branch selection of `Client::client`, in source order. -/
def select_path (c : Client) (url : Url) (http_version : HttpVersion) :
    TransportPath :=
  if http_version == .HTTP_3 then .quic
  else if url.scheme == "https" then .tls
  else if c.unix_socket.isSome then .unix
  else if c.vsock_addr.isSome then .vsock
  else .tcp

/-- Which transport paths perform a DNS lookup before connecting (the Unix
and vsock paths dial a local address, no resolution happens). -/
def path_resolves_dns : TransportPath → Bool
  | .quic => true
  | .tls => true
  | .tcp => true
  | .unix => false
  | .vsock => false

/-- The outcome of the connect/handshake future raced against the connect
timeout. -/
inductive ConnectOutcome where
  | ok
  | ioErr (rawOsError : Option Int)
  | timedOut
deriving Repr, DecidableEq

/-- The network behaviour of one `Client::client` call. -/
structure DialEnv where
  outcome : ConnectOutcome
  dnsInstant : Instant
deriving Repr, DecidableEq

/-- The observable events of one `Client::client` call, in program order. -/
inductive DialEvent where
  | resolveDns
  | captureDnsInstant
  | connectStart (p : TransportPath)
deriving Repr, DecidableEq

/-- `let timeout_duration = tokio::time::Duration::from_secs(5)`: the one
connect timeout wrapped around every transport branch. -/
def connect_timeout_secs : Nat := 5

/-- The timeout applied by the branch of `Client::client` that
`select_path` chooses: every branch races against the same
`timeout_duration`. -/
def client_timeout_secs (_c : Client) (_url : Url) (_v : HttpVersion) : Nat :=
  connect_timeout_secs

/-- The event trace of one `Client::client` call: DNS resolution on the
paths that resolve, then the `dns_lookup` instant capture, then the
connect/handshake start. -/
def client_events (c : Client) (url : Url) (v : HttpVersion) : List DialEvent :=
  (if path_resolves_dns (select_path c url v) then [DialEvent.resolveDns] else [])
    ++ [DialEvent.captureDnsInstant, DialEvent.connectStart (select_path c url v)]

/-- `Client::client` from client.rs: each branch wraps its connect or
handshake in the timeout; expiry yields `Timeout`, a connect error is
surfaced (the TCP/Unix/vsock branches wrap it as `IoError`), and success
returns the `dns_lookup` instant captured before the connect, together
with the stream (represented by its transport path). -/
def client_connect (c : Client) (url : Url) (v : HttpVersion) (env : DialEnv) :
    Except ClientError (Instant × TransportPath) :=
  match env.outcome with
  | .timedOut => .error .Timeout
  | .ioErr rawOsError => .error (.IoError rawOsError)
  | .ok => .ok (env.dnsInstant, select_path c url v)

/-- C8 -- every transport path of `Client::client` (QUIC, TLS, Unix,
vsock, plain TCP) wraps its connect/handshake in the same 5-second timeout
whose expiry yields `Timeout`; the `dns_lookup` instant is captured after
DNS resolution completes (on the paths that resolve a name) and before the
connect or handshake begins. -/
theorem client_connect_timeout_spec (c : Client) (url : Url)
    (v : HttpVersion) (env : DialEnv) :
    client_timeout_secs c url v = 5
    ∧ (env.outcome = .timedOut → client_connect c url v env = .error .Timeout)
    ∧ (∃ pre, client_events c url v =
          pre ++ [DialEvent.captureDnsInstant,
                  DialEvent.connectStart (select_path c url v)]
        ∧ (pre = [] ∨ pre = [DialEvent.resolveDns])
        ∧ (path_resolves_dns (select_path c url v) = true →
            pre = [DialEvent.resolveDns])) := by
  refine ⟨rfl, ?_, ?_⟩
  · intro h
    simp [client_connect, h]
  · refine ⟨if path_resolves_dns (select_path c url v) then [DialEvent.resolveDns]
      else [], rfl, ?_, ?_⟩
    · cases hp : path_resolves_dns (select_path c url v) <;> simp [hp]
    · intro hp
      simp [hp]

/-- Witness for `client_connect_timeout_spec`: an expired QUIC dial reports
`Timeout`. -/
theorem client_connect_timeout_spec_witness :
    client_connect
      { http_version := .HTTP_3, proxy_http_version := .HTTP_11,
        url_generator := fun _ => ⟨"https", "h", "/"⟩, proxy_url := none,
        redirect_limit := 0, disable_keepalive := false, timeout := none,
        unix_socket := none, vsock_addr := none }
      ⟨"https", "h", "/"⟩ .HTTP_3 ⟨.timedOut, 0⟩ = .error .Timeout :=
  (client_connect_timeout_spec
    { http_version := .HTTP_3, proxy_http_version := .HTTP_11,
      url_generator := fun _ => ⟨"https", "h", "/"⟩, proxy_url := none,
      redirect_limit := 0, disable_keepalive := false, timeout := none,
      unix_socket := none, vsock_addr := none }
    ⟨"https", "h", "/"⟩ .HTTP_3 ⟨.timedOut, 0⟩).2.1 rfl

/-! ## Workload emitters

Emitter-side wall-clock instants are rationals (the source computes QPS
offsets in `f64` seconds).  A token payload is `Option ℚ`: `none` for the
plain emitters, the observed instant for the latency-corrected ones. -/

/-- The instant the i-th QPS token is scheduled to fire:
`start + i * (1 / qps)` (`Duration::from_secs_f64(i as f64 * 1f64 / qps)`,
added to `start`). -/
def qps_scheduled (start invQps : ℚ) (i : Nat) : ℚ := start + i * invQps

/-- A valid clock for a QPS emitter run: `wake i` is the `Instant::now()`
reading observed right after the i-th `sleep_until` returns, and
`sleep_until` returns at or after its deadline. -/
def QpsClockValid (start invQps : ℚ) (wake : Nat → ℚ) : Prop :=
  ∀ i, qps_scheduled start invQps i ≤ wake i

/-- The fixed-N latency-corrected QPS emitter
(`work_with_qps_latency_correction`, `QueryLimit::Qps` branch): the i-th
token's payload is `Some(Instant::now())` taken right after
`sleep_until(start + i/qps)`. -/
def qps_lc_tokens (wake : Nat → ℚ) (n_tasks : Nat) : List (Option ℚ) :=
  (List.range n_tasks).map (fun i => some (wake i))

/-- The fixed-N plain QPS emitter (`work_with_qps`, `QueryLimit::Qps`
branch): one `None` token per loop iteration `i in 0..n_tasks`. -/
def qps_tokens (n_tasks : Nat) : List (Option ℚ) :=
  (List.range n_tasks).map (fun _ => none)

/-- The fixed-N unpaced emitter (`work`): one `None` token per loop
iteration. -/
def work_tokens (n_tasks : Nat) : List (Option ℚ) :=
  (List.range n_tasks).map (fun _ => none)

/-- The burst emitter loop shared by `work_with_qps` and
`work_with_qps_latency_correction` (`QueryLimit::Burst` branch): while
`n + rate < n_tasks`, sleep one period and emit a group of `rate` tokens,
all carrying the g-th group's payload; afterwards, if tasks remain, sleep
one more period and emit the remaining `n_tasks - n` tokens with the next
group's payload.  `fuel` bounds the number of loop iterations, `none`
meaning the loop did not finish within the given fuel (with `rate = 0` and
`n_tasks > 0` no fuel suffices: the loop never terminates). -/
def burst_emit_aux (payload : Nat → Option ℚ) (n_tasks rate : Nat) :
    Nat → Nat → Nat → Option (List (Option ℚ))
  | 0, _, _ => none
  | fuel + 1, n, g =>
    if n + rate < n_tasks then
      (burst_emit_aux payload n_tasks rate fuel (n + rate) (g + 1)).map
        (fun rest => List.replicate rate (payload g) ++ rest)
    else
      some (if n < n_tasks then List.replicate (n_tasks - n) (payload g) else [])

/-- The fixed-N latency-corrected burst emitter: the payload of every token
of group `g` is the instant `groupWake g` captured once when the group
fires.  Fuel `n_tasks + 1` is enough whenever `rate ≥ 1`. -/
def burst_lc_tokens (groupWake : Nat → ℚ) (n_tasks rate : Nat) :
    Option (List (Option ℚ)) :=
  burst_emit_aux (fun g => some (groupWake g)) n_tasks rate (n_tasks + 1) 0 0

theorem burst_emit_aux_total (payload : Nat → Option ℚ) (n_tasks rate : Nat)
    (hrate : 0 < rate) :
    ∀ fuel n g, n_tasks - n < fuel →
      ∃ l, burst_emit_aux payload n_tasks rate fuel n g = some l
        ∧ l.length = n_tasks - n
        ∧ ∀ p ∈ l, ∃ gr, p = payload gr := by
  intro fuel
  induction fuel with
  | zero => intro n g h; omega
  | succ fuel ih =>
    intro n g h
    by_cases hc : n + rate < n_tasks
    · obtain ⟨l, hl, hlen, hmem⟩ := ih (n + rate) (g + 1) (by omega)
      refine ⟨List.replicate rate (payload g) ++ l, ?_, ?_, ?_⟩
      · simp [burst_emit_aux, hc, hl]
      · simp only [List.length_append, List.length_replicate, hlen]
        omega
      · intro p hp
        rcases List.mem_append.mp hp with hp | hp
        · exact ⟨g, List.eq_of_mem_replicate hp⟩
        · exact hmem p hp
    · refine ⟨if n < n_tasks then List.replicate (n_tasks - n) (payload g) else [],
        ?_, ?_, ?_⟩
      · simp [burst_emit_aux, hc]
      · by_cases hn : n < n_tasks <;> simp [hn] <;> omega
      · intro p hp
        by_cases hn : n < n_tasks
        · simp only [if_pos hn] at hp
          exact ⟨g, List.eq_of_mem_replicate hp⟩
        · simp [if_neg hn] at hp

theorem burst_emit_aux_rate_zero_diverges (payload : Nat → Option ℚ) :
    ∀ fuel g, burst_emit_aux payload 1 0 fuel 0 g = none := by
  intro fuel
  induction fuel with
  | zero => intro g; rfl
  | succ fuel ih => intro g; simp [burst_emit_aux, ih]

/-- The claim of C9 instantiated to the Burst branch: for any `n_tasks` and
`rate`, the burst loop would terminate (some fuel suffices) having emitted
exactly `n_tasks` tokens. -/
def burst_emits_exactly (n_tasks rate : Nat) : Prop :=
  ∃ fuel l, burst_emit_aux (fun _ => none) n_tasks rate fuel 0 0 = some l
    ∧ l.length = n_tasks

/-- C9 counterexample -- with `rate = 0` and `n_tasks = 1` the burst loop
body emits zero tokens per period forever: it never terminates, never
closes the channel, and never delivers the single task. -/
theorem burst_emits_exactly_counterexample : ¬ burst_emits_exactly 1 0 := by
  rintro ⟨fuel, l, hl, _⟩
  rw [burst_emit_aux_rate_zero_diverges (fun _ => none) fuel 0] at hl
  cases hl

/-- C9 (amended) -- the fixed-N closed-loop emitters (`work`;
`work_with_qps` under QPS pacing; and, provided the burst rate is at least
1, under Burst pacing) emit exactly `n_tasks` tokens and then close the
channel (the emitted list is complete); the Burst branch emits full groups
of `rate` tokens followed by one remainder group whose sizes total
`n_tasks`.  With `rate = 0` and `n_tasks > 0` the burst loop diverges. -/
theorem closed_loop_token_count_spec (n_tasks rate : Nat) (hrate : 0 < rate) :
    (work_tokens n_tasks).length = n_tasks
    ∧ (qps_tokens n_tasks).length = n_tasks
    ∧ ∃ l, burst_emit_aux (fun _ => none) n_tasks rate (n_tasks + 1) 0 0 = some l
        ∧ l.length = n_tasks := by
  refine ⟨by simp [work_tokens], by simp [qps_tokens], ?_⟩
  obtain ⟨l, hl, hlen, -⟩ :=
    burst_emit_aux_total (fun _ => none) n_tasks rate hrate (n_tasks + 1) 0 0
      (by omega)
  exact ⟨l, hl, by omega⟩

/-- Witness for `closed_loop_token_count_spec`: 5 tasks at burst rate 2
yield two full groups of 2 and a remainder group of 1. -/
theorem closed_loop_token_count_spec_witness :
    ∃ l, burst_emit_aux (fun _ => none) 5 2 6 0 0 = some l ∧ l.length = 5 :=
  (closed_loop_token_count_spec 5 2 (by decide)).2.2

/-! ## Latency correction (C2) -/

/-- One iteration of the H1 worker loop in `parallel_work_http1`: run
`work_http1`, then install the token payload (when present) as
`start_latency_correction` of the result. -/
def h1_worker_step (c : Client) (env : H1Env) (st : Option Nat)
    (token : Option Instant) : Except ClientError RequestResult × Option Nat :=
  let out := work_http1 c env st
  (match token with
   | some t => set_start_latency_correction out.1 t
   | none => out.1,
   out.2)

/-- The claim of C2 instantiated to the fixed-N latency-corrected QPS
emitter: every token payload would equal the scheduled instant
`start + i/qps` of its token. -/
def qps_lc_payload_eq_scheduled (start invQps : ℚ) (wake : Nat → ℚ)
    (n_tasks : Nat) : Prop :=
  ∀ i, i < n_tasks →
    (qps_lc_tokens wake n_tasks)[i]? = some (some (qps_scheduled start invQps i))

/-- C2 counterexample -- a run whose clock wakes one unit after each
scheduled instant is a possible execution (`sleep_until` only guarantees
at-or-after), yet its token payloads are the observed wake instants, not
the scheduled instants `start + i/qps`. -/
theorem qps_lc_payload_counterexample :
    QpsClockValid 0 1 (fun i => (i : ℚ) + 1)
    ∧ ¬ qps_lc_payload_eq_scheduled 0 1 (fun i => (i : ℚ) + 1) 1 := by
  constructor
  · intro i
    simp [qps_scheduled]
  · intro h
    have h0 := h 0 (by decide)
    simp [qps_lc_tokens, qps_scheduled] at h0

/-- C2 (amended) -- a latency-corrected emitter's token payload is the
instant observed immediately after the scheduled sleep completes: for the
i-th QPS token it is the wake instant, which is at or after `start + i/q`
(equal only when the sleep wakes exactly on schedule); burst tokens all
carry the instant their group fired, with `n_tasks` tokens in total; and
every worker (H1, H2, H3) that consumes a token with payload `t` sets
`start_latency_correction` of a successful result to `t`. -/
theorem latency_correction_spec :
    (∀ (start invQps : ℚ) (wake : Nat → ℚ) (n_tasks : Nat),
        QpsClockValid start invQps wake →
        ∀ i, i < n_tasks →
          (qps_lc_tokens wake n_tasks)[i]? = some (some (wake i))
          ∧ qps_scheduled start invQps i ≤ wake i)
    ∧ (∀ (groupWake : Nat → ℚ) (n_tasks rate : Nat), 0 < rate →
        ∃ l, burst_lc_tokens groupWake n_tasks rate = some l
          ∧ l.length = n_tasks
          ∧ ∀ p ∈ l, ∃ g, p = some (groupWake g))
    ∧ (∀ (c : Client) (env : H1Env) (st : Option Nat) (t : Instant) r,
        (h1_worker_step c env st (some t)).1 = .ok r →
          r.start_latency_correction = some t)
    ∧ (∀ (env : MuxReqEnv) (ct : ConnectionTime) (t : Instant) r,
        (work_http2_once env ct (some t)).1 = .ok r →
          r.start_latency_correction = some t)
    ∧ (∀ (env : MuxReqEnv) (ct : ConnectionTime) (t : Instant) r,
        (work_http3_once env ct (some t)).1 = .ok r →
          r.start_latency_correction = some t) := by
  refine ⟨?_, ?_, ?_, ?_, ?_⟩
  · intro start invQps wake n_tasks hclock i hi
    refine ⟨?_, hclock i⟩
    simp [qps_lc_tokens, hi]
  · intro groupWake n_tasks rate hrate
    obtain ⟨l, hl, hlen, hmem⟩ :=
      burst_emit_aux_total (fun g => some (groupWake g)) n_tasks rate hrate
        (n_tasks + 1) 0 0 (by omega)
    exact ⟨l, hl, by omega, hmem⟩
  · intro c env st t r h
    cases hsend : env.sendOutcome with
    | err =>
      simp [h1_worker_step, work_http1, hsend, set_start_latency_correction] at h
    | ok s0 n0 loc =>
      rcases hred : h1_redirected c env s0 n0 loc with e | ⟨s, n⟩
      · simp [h1_worker_step, work_http1, hsend, hred,
          set_start_latency_correction] at h
      · simp only [h1_worker_step, work_http1, hsend, hred,
          set_start_latency_correction] at h
        cases h
        rfl
  · intro env ct t r h
    rcases hout : env.outcome with e | ⟨s, n⟩ <;>
      simp only [work_http2_once, work_http2, hout, set_connection_time,
        set_start_latency_correction] at h <;>
      cases h <;> rfl
  · intro env ct t r h
    rcases hout : env.outcome with e | ⟨s, n⟩ <;>
      simp only [work_http3_once, work_http3, hout, set_connection_time,
        set_start_latency_correction] at h <;>
      cases h <;> rfl

/-- Witness for `latency_correction_spec`: an H2 worker consuming a token
with payload 11 reports `start_latency_correction = some 11`. -/
theorem latency_correction_spec_witness :
    ({ rng := ⟨[]⟩, start_latency_correction := some 11, start := 3,
       connection_time := some ⟨1, 2⟩, first_byte := none, end_ := 4,
       status := 200, len_bytes := 5 } : RequestResult).start_latency_correction
      = some 11 :=
  latency_correction_spec.2.2.2.1 ⟨.ok (200, 5), 3, none, 4, ⟨[]⟩⟩ ⟨1, 2⟩ 11 _
    (by decide)

/-- C3 -- `RequestResult::duration()` equals `end` minus
`start_latency_correction` when that field is present, and `end` minus
`start` otherwise. -/
theorem duration_spec (r : RequestResult) :
    (∀ t, r.start_latency_correction = some t → r.duration = r.end_ - t)
    ∧ (r.start_latency_correction = none → r.duration = r.end_ - r.start) := by
  constructor
  · intro t ht
    simp [RequestResult.duration, ht]
  · intro h
    simp [RequestResult.duration, h]

/-- Witness for `duration_spec` at a concrete result. -/
theorem duration_spec_witness :
    ({ rng := ⟨[]⟩, start_latency_correction := some 3, start := 5,
       connection_time := none, first_byte := none, end_ := 10,
       status := 200, len_bytes := 0 } : RequestResult).duration = 10 - 3 :=
  (duration_spec _).1 3 rfl

/-- C5 -- `is_cancel_error` holds exactly on `Err(Deadline)` and on
`Err(Io)` with raw OS error `EMFILE`; `is_hyper_error` holds exactly on
`Err(Io)` and `Err(Hyper)`; both are false on every `Ok` result and every
other error variant. -/
theorem error_classifiers_spec (res : Except ClientError RequestResult) :
    (is_cancel_error res = true ↔
      res = .error .Deadline
        ∨ ∃ rawOsError, res = .error (.IoError rawOsError)
            ∧ rawOsError = some EMFILE)
    ∧ (is_hyper_error res = true ↔
      (∃ rawOsError, res = .error (.IoError rawOsError))
        ∨ res = .error .HyperError) := by
  constructor
  · cases res with
    | ok r => simp [is_cancel_error, is_too_many_open_files]
    | error e =>
      cases e <;>
        simp [is_cancel_error, is_too_many_open_files]
  · cases res with
    | ok r => simp [is_hyper_error]
    | error e =>
      cases e <;> simp [is_hyper_error]

/-- Witness for `error_classifiers_spec`: an `EMFILE` io error is
cancel-class, and the same input is also reconnect-class for H2. -/
theorem error_classifiers_spec_witness :
    is_cancel_error (.error (.IoError (some EMFILE))) = true
    ∧ is_hyper_error (.error (.IoError (some EMFILE))) = true :=
  ⟨(error_classifiers_spec (.error (.IoError (some EMFILE)))).1.mpr
      (Or.inr ⟨some EMFILE, rfl, rfl⟩),
   (error_classifiers_spec (.error (.IoError (some EMFILE)))).2.mpr
      (Or.inl ⟨some EMFILE, rfl⟩)⟩

end Oha
